import Mathlib

/-!
# Verification of the icon-font-generator option pipeline

Shallow embedding, in Lean 4, of the logic-bearing core of the
`icon-font-generator` repository:

* `src/lib/codepoint.js` — the single-token codepoint scanner;
* `src/lib/index.js` — option resolution, selector parsing, config
  building, validation, cleanup, and the CSS-to-JSON extraction;
* `src/lib/constants.js` — `FONT_TYPES`, `DEFAULT_OPTIONS`,
  `CSS_PARSE_REGEX`, `TEMPLATES`.

Modelling conventions:

* JavaScript strings are modelled as Lean `String` (sequences of Unicode
  scalar values; JS works on UTF-16 units, the two agree on the inputs
  exercised here, which are ASCII).
* Absent (`undefined`) object properties are modelled with `Option`;
  `none` is `undefined`.  JS truthiness on strings (`"" `is falsy) and on
  numbers (`0` is falsy) is modelled explicitly where the source relies
  on it.
* `Number.parseInt` produces `NaN` on unparsable input; `NaN` is
  modelled as `none : Option Nat`.
* Fallible code returns `Except`; a thrown `ValidationError` is an
  `Except.error` carrying the message string.
* The filesystem is an explicit state value threaded through the
  functions that the source `await`s on.
-/

/-! ## Character and digit primitives -/

/-- `\d` of the source regexes: an ASCII decimal digit. -/
def isDecDigitCh (c : Char) : Bool :=
  '0' ≤ c && c ≤ '9'

/-- `[\da-f]` with the `i` flag: an ASCII hexadecimal digit, either case. -/
def isHexDigitCh (c : Char) : Bool :=
  isDecDigitCh c || ('a' ≤ c && c ≤ 'f') || ('A' ≤ c && c ≤ 'F')

/-- Numeric value of a decimal digit character. -/
def decDigitVal (c : Char) : Nat :=
  c.toNat - '0'.toNat

/-- Numeric value of a hexadecimal digit character (either case). -/
def hexDigitVal (c : Char) : Nat :=
  if isDecDigitCh c then c.toNat - '0'.toNat
  else if 'a' ≤ c && c ≤ 'f' then c.toNat - 'a'.toNat + 10
  else c.toNat - 'A'.toNat + 10

/-- Value of a big-endian digit list in base `b` (the fold a positional
numeral parser performs). -/
def digitsVal (b : Nat) (ds : List Nat) : Nat :=
  ds.foldl (fun a d => a * b + d) 0

/-- Value of a big-endian decimal digit-character list. -/
def decValList (cs : List Char) : Nat :=
  digitsVal 10 (cs.map decDigitVal)

/-- Value of a big-endian hexadecimal digit-character list. -/
def hexValList (cs : List Char) : Nat :=
  digitsVal 16 (cs.map hexDigitVal)

/-- Digit character for a value below 16, lowercase — as produced by the
JavaScript `Number.prototype.toString` renderings. -/
def digitCh (d : Nat) : Char :=
  match d with
  | 0 => '0' | 1 => '1' | 2 => '2' | 3 => '3' | 4 => '4'
  | 5 => '5' | 6 => '6' | 7 => '7' | 8 => '8' | 9 => '9'
  | 10 => 'a' | 11 => 'b' | 12 => 'c' | 13 => 'd' | 14 => 'e' | 15 => 'f'
  | _ => '*'

/-- Little-endian base-`b` digits of `n`, with explicit fuel so that the
definition is structural (and kernel-reducible). -/
def digitsRevBase (b : Nat) : Nat → Nat → List Nat
  | 0, _ => []
  | fuel + 1, n => if n = 0 then [] else n % b :: digitsRevBase b fuel (n / b)

/-- Big-endian base-`b` digit characters of `n`, `['0']` for zero — the
shape of the JavaScript `n.toString(base)` rendering. -/
def natToBaseChars (b n : Nat) : List Char :=
  if n = 0 then ['0'] else ((digitsRevBase b n n).reverse).map digitCh

/-- Decimal rendering of `n`, as JavaScript `String(n)` produces it. -/
def natToDecString (n : Nat) : String :=
  ⟨natToBaseChars 10 n⟩

/-- Lowercase hexadecimal rendering of `n`, as JavaScript
`n.toString(16)` produces it. -/
def natToHexString (n : Nat) : String :=
  ⟨natToBaseChars 16 n⟩

/-! ## `src/lib/codepoint.js` -/

/-- `isNumber` of `src/lib/codepoint.js`: full match of
`/^((0x[\da-f]+)|(\d+))$/gi` — a `0x`/`0X`-prefixed nonempty hex-digit
run, or a nonempty decimal-digit run. -/
def isNumberTok (cs : List Char) : Bool :=
  (match cs with
   | c :: x :: rest =>
     c = '0' && (x = 'x' || x = 'X') && (!rest.isEmpty) && rest.all isHexDigitCh
   | _ => false)
  || ((!cs.isEmpty) && cs.all isDecDigitCh)

/-- `isUnicodeEscape` of `src/lib/codepoint.js`: full match of
`/^\\[\da-f]{1,6}$/gi` — a backslash followed by one to six hex digits. -/
def isUnicodeEscapeTok (cs : List Char) : Bool :=
  match cs with
  | '\\' :: rest => (!rest.isEmpty) && rest.length ≤ 6 && rest.all isHexDigitCh
  | _ => false

/-- JavaScript `Number.parseInt(s)` (radix auto-detection), on the
sign-less, unpadded tokens this program feeds it: a `0x`/`0X` prefix
switches to base 16, otherwise base 10; the longest valid leading digit
run is parsed; an empty run gives `NaN`, modelled as `none`.  (Real
`parseInt` additionally skips leading whitespace and accepts a sign;
no call site in this repository passes such input.) -/
def jsParseIntDec (cs : List Char) : Option Nat :=
  let run := cs.takeWhile isDecDigitCh
  if run.isEmpty then none else some (decValList run)

/-- See `jsParseIntDec`; this is the radix-auto-detecting entry point. -/
def jsParseIntTok (cs : List Char) : Option Nat :=
  match cs with
  | c :: x :: rest =>
    if c = '0' && (x = 'x' || x = 'X') then
      let run := rest.takeWhile isHexDigitCh
      if run.isEmpty then none else some (hexValList run)
    else jsParseIntDec (c :: x :: rest)
  | cs => jsParseIntDec cs

/-- The `ValidationError` message thrown by `parseCodePoint`. -/
def invalidCodePointMsg (propName : String) : String :=
  "Codepoints map contains invalid code point for icon \x27" ++ propName ++ "\x27"

/-- `parseCodePoint` of `src/lib/codepoint.js`.  Branches in source
order: numeric literal (via `Number.parseInt`), single character (its
character code), CSS unicode escape (hex value of the digits after the
backslash), otherwise a `ValidationError` naming the icon.  In the
first branch `isNumber` guarantees `Number.parseInt` succeeds, so the
`getD 0` default is never taken. -/
def parseCodePoint (codePoint propName : String) : Except String Nat :=
  if isNumberTok codePoint.data then
    .ok ((jsParseIntTok codePoint.data).getD 0)
  else
    match codePoint.data with
    | [c] => .ok c.toNat
    | cs =>
      if isUnicodeEscapeTok cs then .ok (hexValList (cs.drop 1))
      else .error (invalidCodePointMsg propName)

example : parseCodePoint "0x2a" "ic" = .ok 42 := rfl
example : parseCodePoint "0X2A" "ic" = .ok 42 := rfl
example : parseCodePoint "97" "ic" = .ok 97 := rfl
example : parseCodePoint "A" "ic" = .ok 65 := rfl
example : parseCodePoint "\\f101" "ic" = .ok 0xf101 := rfl
example : parseCodePoint "\\0041" "ic" = .ok 0x41 := rfl
example : parseCodePoint "??" "ic" = .error (invalidCodePointMsg "ic") := rfl
example : parseCodePoint "" "ic" = .error (invalidCodePointMsg "ic") := rfl
example : parseCodePoint "0x" "ic" = .error (invalidCodePointMsg "ic") := rfl

/-! ## Positional-numeral round-trip lemmas -/

/-- Value of a little-endian digit list in base `b`. -/
def valLE (b : Nat) : List Nat → Nat
  | [] => 0
  | d :: t => d + b * valLE b t

theorem digitsRevBase_all_lt (b : Nat) (hb : 2 ≤ b) :
    ∀ fuel n, ∀ d ∈ digitsRevBase b fuel n, d < b := by
  intro fuel
  induction fuel with
  | zero => intro n d hd; simp [digitsRevBase] at hd
  | succ f ih =>
    intro n d hd
    by_cases hn : n = 0
    · simp [digitsRevBase, hn] at hd
    · simp only [digitsRevBase, if_neg hn, List.mem_cons] at hd
      rcases hd with h | h
      · subst h; exact Nat.mod_lt _ (by omega)
      · exact ih _ _ h

theorem valLE_digitsRevBase (b : Nat) (hb : 2 ≤ b) :
    ∀ fuel n, n ≤ fuel → valLE b (digitsRevBase b fuel n) = n := by
  intro fuel
  induction fuel with
  | zero => intro n hn; interval_cases n; simp [digitsRevBase, valLE]
  | succ f ih =>
    intro n hn
    by_cases h0 : n = 0
    · simp [digitsRevBase, h0, valLE]
    · have hdiv : n / b ≤ f := by
        have : n / b < n := Nat.div_lt_self (by omega) (by omega)
        omega
      simp only [digitsRevBase, if_neg h0, valLE, ih _ hdiv]
      exact Nat.mod_add_div n b

theorem foldl_reverse_valLE (b : Nat) :
    ∀ (L : List Nat) (a : Nat),
      List.foldl (fun x d => x * b + d) a L.reverse = a * b ^ L.length + valLE b L := by
  intro L
  induction L with
  | nil => intro a; simp [valLE]
  | cons d t ih =>
    intro a
    simp only [List.reverse_cons, List.foldl_append, List.foldl_cons, List.foldl_nil,
      ih, valLE, List.length_cons]
    ring

theorem digitsVal_reverse (b : Nat) (L : List Nat) :
    digitsVal b L.reverse = valLE b L := by
  simpa [digitsVal] using foldl_reverse_valLE b L 0

theorem decDigitVal_digitCh : ∀ d, d < 10 → decDigitVal (digitCh d) = d := by decide

theorem hexDigitVal_digitCh : ∀ d, d < 16 → hexDigitVal (digitCh d) = d := by decide

theorem isDecDigitCh_digitCh : ∀ d, d < 10 → isDecDigitCh (digitCh d) = true := by decide

theorem isHexDigitCh_digitCh : ∀ d, d < 16 → isHexDigitCh (digitCh d) = true := by decide

theorem mapIdOn {α : Type} (f : α → α) :
    ∀ l : List α, (∀ a ∈ l, f a = a) → l.map f = l := by
  intro l
  induction l with
  | nil => intro _; rfl
  | cons a t ih =>
    intro h
    simp only [List.map_cons, h a (List.mem_cons_self a t),
      ih fun x hx => h x (List.mem_cons_of_mem a hx)]

theorem takeWhileAll {α : Type} (p : α → Bool) :
    ∀ l : List α, l.all p = true → l.takeWhile p = l := by
  intro l
  induction l with
  | nil => intro _; rfl
  | cons a t ih =>
    intro h
    simp only [List.all_cons, Bool.and_eq_true] at h
    simp [List.takeWhile_cons, h.1, ih h.2]

theorem natToBaseChars_ne_nil (b n : Nat) : natToBaseChars b n ≠ [] := by
  by_cases hn : n = 0
  · simp [natToBaseChars, hn]
  · obtain ⟨m, rfl⟩ : ∃ m, n = m + 1 := ⟨n - 1, by omega⟩
    simp [natToBaseChars, digitsRevBase]

theorem natToBaseChars_all (b n : Nat) (hb : 2 ≤ b) (p : Char → Bool)
    (hp : ∀ d, d < b → p (digitCh d) = true) (h0 : p '0' = true) :
    (natToBaseChars b n).all p = true := by
  by_cases hn : n = 0
  · simp [natToBaseChars, hn, h0]
  · rw [natToBaseChars, if_neg hn, List.all_eq_true]
    intro c hc
    rw [List.mem_map] at hc
    obtain ⟨d, hd, rfl⟩ := hc
    rw [List.mem_reverse] at hd
    exact hp d (digitsRevBase_all_lt b hb _ _ d hd)

theorem decValList_natToBase (n : Nat) : decValList (natToBaseChars 10 n) = n := by
  by_cases hn : n = 0
  · simp [natToBaseChars, hn, decValList, digitsVal, decDigitVal]
  · rw [natToBaseChars, if_neg hn, decValList, List.map_reverse, List.map_reverse, List.map_map, Function.comp_def,
      mapIdOn _ _ fun d hd =>
        decDigitVal_digitCh d (digitsRevBase_all_lt 10 (by omega) _ _ d hd),
      digitsVal_reverse]
    exact valLE_digitsRevBase 10 (by omega) n n (Nat.le_refl n)

theorem hexValList_natToBase (n : Nat) : hexValList (natToBaseChars 16 n) = n := by
  by_cases hn : n = 0
  · simp [natToBaseChars, hn, hexValList, digitsVal, hexDigitVal, isDecDigitCh]
  · rw [natToBaseChars, if_neg hn, hexValList, List.map_reverse, List.map_reverse, List.map_map, Function.comp_def,
      mapIdOn _ _ fun d hd =>
        hexDigitVal_digitCh d (digitsRevBase_all_lt 16 (by omega) _ _ d hd),
      digitsVal_reverse]
    exact valLE_digitsRevBase 16 (by omega) n n (Nat.le_refl n)

/-! ## Branch lemmas for `parseCodePoint` -/

theorem isEmpty_false_of_ne_nil {α : Type} {cs : List α} (h : cs ≠ []) :
    cs.isEmpty = false := by
  cases cs with
  | nil => exact absurd rfl h
  | cons a t => rfl

theorem parseCodePoint_allDec (cs : List Char) (hne : cs ≠ [])
    (hall : cs.all isDecDigitCh = true) (icon : String) :
    parseCodePoint ⟨cs⟩ icon = .ok (decValList cs) := by
  have hneb : cs.isEmpty = false := isEmpty_false_of_ne_nil hne
  have hnum : isNumberTok cs = true := by
    unfold isNumberTok
    rw [hneb, hall]
    simp
  have hdec : jsParseIntDec cs = some (decValList cs) := by
    rw [jsParseIntDec, takeWhileAll _ cs hall]
    simp [hneb]
  have htok : jsParseIntTok cs = some (decValList cs) := by
    cases cs with
    | nil => exact absurd rfl hne
    | cons c t =>
      cases t with
      | nil => simpa [jsParseIntTok] using hdec
      | cons x r =>
        have hx : isDecDigitCh x = true := by
          simp only [List.all_cons, Bool.and_eq_true] at hall
          exact hall.2.1
        have hx1 : x ≠ 'x' := by rintro rfl; exact absurd hx (by decide)
        have hx2 : x ≠ 'X' := by rintro rfl; exact absurd hx (by decide)
        simpa [jsParseIntTok, hx1, hx2] using hdec
  simp [parseCodePoint, hnum, htok]

theorem parseCodePoint_hexTok (x : Char) (hx : x = 'x' ∨ x = 'X')
    (cs : List Char) (hne : cs ≠ []) (hall : cs.all isHexDigitCh = true)
    (icon : String) :
    parseCodePoint ⟨'0' :: x :: cs⟩ icon = .ok (hexValList cs) := by
  have hneb : cs.isEmpty = false := isEmpty_false_of_ne_nil hne
  have hnum : isNumberTok ('0' :: x :: cs) = true := by
    rcases hx with rfl | rfl <;> simp [isNumberTok, hneb, hall]
  have htok : jsParseIntTok ('0' :: x :: cs) = some (hexValList cs) := by
    rcases hx with rfl | rfl <;>
      simp [jsParseIntTok, takeWhileAll _ cs hall, hneb]
  simp [parseCodePoint, hnum, htok]

/-- C9: `parseCodePoint` round-trips on numeric renderings: for every
integer N in [0, 0x10FFFF], parsing the `0x`-prefixed (lowercase)
hexadecimal rendering of N yields N, and parsing the decimal rendering
of N yields N. -/
theorem parseCodePoint_c9 (n : Nat) (h : n ≤ 0x10FFFF) (icon : String) :
    parseCodePoint (natToDecString n) icon = .ok n
    ∧ parseCodePoint ("0x" ++ natToHexString n) icon = .ok n := by
  constructor
  · rw [natToDecString,
      parseCodePoint_allDec (natToBaseChars 10 n) (natToBaseChars_ne_nil 10 n)
        (natToBaseChars_all 10 n (by omega) _ isDecDigitCh_digitCh (by decide)) icon,
      decValList_natToBase]
  · have heq : ("0x" ++ natToHexString n) = (⟨'0' :: 'x' :: natToBaseChars 16 n⟩ : String) := by
      rw [natToHexString]
      rfl
    rw [heq,
      parseCodePoint_hexTok 'x' (Or.inl rfl) (natToBaseChars 16 n)
        (natToBaseChars_ne_nil 16 n)
        (natToBaseChars_all 16 n (by omega) _ isHexDigitCh_digitCh (by decide)) icon,
      hexValList_natToBase]

/-- Witness for C9 at N = 0xF101. -/
theorem parseCodePoint_c9_witness :
    (0xF101 : Nat) ≤ 0x10FFFF
    ∧ parseCodePoint (natToDecString 0xF101) "home" = .ok 0xF101
    ∧ parseCodePoint ("0x" ++ natToHexString 0xF101) "home" = .ok 0xF101 :=
  ⟨by decide, (parseCodePoint_c9 0xF101 (by decide) "home").1,
    (parseCodePoint_c9 0xF101 (by decide) "home").2⟩

/-- C8: `parseCodePoint` checks the accepted token shapes in source
order — (1) numeric literal (`0x`/`0X`-prefixed hex digits or plain
decimal digits, parsed in that base), (2) a single character (its
numeric character code), (3) a CSS unicode escape (backslash followed
by 1–6 hex digits, parsed as hex) — and any token matching none of the
shapes fails with the `ValidationError` message
"Codepoints map contains invalid code point for icon '<iconName>'". -/
theorem parseCodePoint_c8 (tok icon : String) :
    (∀ rest, (tok.data = '0' :: 'x' :: rest ∨ tok.data = '0' :: 'X' :: rest) →
      rest ≠ [] → rest.all isHexDigitCh = true →
      parseCodePoint tok icon = .ok (hexValList rest))
    ∧ (tok.data ≠ [] → tok.data.all isDecDigitCh = true →
      parseCodePoint tok icon = .ok (decValList tok.data))
    ∧ (∀ c, tok.data = [c] → isNumberTok tok.data = false →
      parseCodePoint tok icon = .ok c.toNat)
    ∧ (∀ rest, tok.data = '\\' :: rest → isNumberTok tok.data = false →
      rest ≠ [] → rest.length ≤ 6 → rest.all isHexDigitCh = true →
      parseCodePoint tok icon = .ok (hexValList rest))
    ∧ (isNumberTok tok.data = false → tok.data.length ≠ 1 →
      isUnicodeEscapeTok tok.data = false →
      parseCodePoint tok icon = .error (invalidCodePointMsg icon)) := by
  refine ⟨?_, ?_, ?_, ?_, ?_⟩
  · intro rest hshape hne hall
    have htok : tok = ⟨tok.data⟩ := rfl
    rcases hshape with hs | hs
    · rw [htok, hs]
      exact parseCodePoint_hexTok 'x' (Or.inl rfl) rest hne hall icon
    · rw [htok, hs]
      exact parseCodePoint_hexTok 'X' (Or.inr rfl) rest hne hall icon
  · intro hne hall
    exact parseCodePoint_allDec tok.data hne hall icon
  · intro c hc hnum
    rw [hc] at hnum
    have htok : tok = ⟨tok.data⟩ := rfl
    rw [htok, hc]
    simp [parseCodePoint, hnum]
  · intro rest hshape hnum hne hlen hall
    have hesc : isUnicodeEscapeTok tok.data = true := by
      rw [hshape, isUnicodeEscapeTok]
      simp [isEmpty_false_of_ne_nil hne, hlen, hall]
    have htok : tok = ⟨tok.data⟩ := rfl
    rw [hshape] at hnum hesc
    rw [htok, hshape]
    cases rest with
    | nil => exact absurd rfl hne
    | cons r t =>
      simp [parseCodePoint, hnum, hesc]
  · intro hnum hlen hesc
    rcases hd : tok.data with _ | ⟨c, _ | ⟨d, t⟩⟩
    · rw [hd] at hnum hesc
      simp [parseCodePoint, hd, hnum, hesc]
    · rw [hd] at hlen
      exact absurd rfl hlen
    · rw [hd] at hnum hesc
      simp [parseCodePoint, hd, hnum, hesc]

/-- Witness for C8: one token per shape, plus a rejected token. -/
theorem parseCodePoint_c8_witness :
    parseCodePoint "0x2a" "ic" = .ok 42
    ∧ parseCodePoint "A" "ic" = .ok 65
    ∧ parseCodePoint "??" "ic" = .error (invalidCodePointMsg "ic") := by
  refine ⟨?_, ?_, ?_⟩
  · exact (parseCodePoint_c8 "0x2a" "ic").1 ['2', 'a'] (Or.inl rfl) (by decide) (by decide)
  · exact (parseCodePoint_c8 "A" "ic").2.2.1 'A' rfl (by decide)
  · exact (parseCodePoint_c8 "??" "ic").2.2.2.2 (by decide) (by decide) (by decide)

/-! ## Options model (`src/lib/constants.js`, `src/lib/index.js`) -/

/-- `FONT_TYPES` of `src/lib/constants.js`. -/
def fontTypes : List String := ["svg", "ttf", "woff", "woff2", "eot"]

/-- The option keys this program reads.  Absent (`undefined`) properties
are `none`.  The `classPrefix` key of the source is named `classPfx`
here; `templateOptions` (the `{}` placeholder in `DEFAULT_OPTIONS`) is
modelled opaquely. -/
structure JsOptions where
  paths : Option (List String) := none
  outputDir : Option String := none
  fontName : Option String := none
  fontsPath : Option String := none
  css : Option Bool := none
  json : Option Bool := none
  html : Option Bool := none
  silent : Option Bool := none
  types : Option (List String) := none
  cssPath : Option String := none
  htmlPath : Option String := none
  jsonPath : Option String := none
  cssTemplate : Option String := none
  htmlTemplate : Option String := none
  cssFontsUrl : Option String := none
  classPfx : Option String := none
  baseTag : Option String := none
  baseSelector : Option String := none
  codepoints : Option String := none
  startCodepoint : Option Nat := none
  codepointsMap : Option (List (String × Option Nat)) := none
  templateOptions : Option Unit := none
deriving DecidableEq

/-- `DEFAULT_OPTIONS` of `src/lib/constants.js`. -/
def defaultOptionsJs : JsOptions :=
  { fontName := some "icons", css := some true, json := some true,
    html := some true, silent := some true, types := some fontTypes,
    templateOptions := some () }

/-- One property of `Object.assign(target, source)`: the source value
wins exactly when the property is present on the source. -/
def assignField {α : Type} (t s : Option α) : Option α :=
  match s with
  | some v => some v
  | none => t

/-- `Object.assign(target, options)` over the option keys this program
uses.  The source calls this with the module-level `DEFAULT_OPTIONS`
object as the *target*, so the merged result is also the new state of
`DEFAULT_OPTIONS` — see the C2 theorems. -/
def objAssign (t s : JsOptions) : JsOptions :=
  { paths := assignField t.paths s.paths,
    outputDir := assignField t.outputDir s.outputDir,
    fontName := assignField t.fontName s.fontName,
    fontsPath := assignField t.fontsPath s.fontsPath,
    css := assignField t.css s.css,
    json := assignField t.json s.json,
    html := assignField t.html s.html,
    silent := assignField t.silent s.silent,
    types := assignField t.types s.types,
    cssPath := assignField t.cssPath s.cssPath,
    htmlPath := assignField t.htmlPath s.htmlPath,
    jsonPath := assignField t.jsonPath s.jsonPath,
    cssTemplate := assignField t.cssTemplate s.cssTemplate,
    htmlTemplate := assignField t.htmlTemplate s.htmlTemplate,
    cssFontsUrl := assignField t.cssFontsUrl s.cssFontsUrl,
    classPfx := assignField t.classPfx s.classPfx,
    baseTag := assignField t.baseTag s.baseTag,
    baseSelector := assignField t.baseSelector s.baseSelector,
    codepoints := assignField t.codepoints s.codepoints,
    startCodepoint := assignField t.startCodepoint s.startCodepoint,
    codepointsMap := assignField t.codepointsMap s.codepointsMap,
    templateOptions := assignField t.templateOptions s.templateOptions }

/-- JS truthiness of a possibly-absent string: `undefined` and `""` are
falsy, everything else truthy. -/
def jsTruthyS : Option String → Bool
  | none => false
  | some s => !(s == "")

/-- JS `a || b` where `a` is a possibly-absent string (empty is falsy). -/
def jsStrOr (a : Option String) (b : String) : String :=
  match a with
  | some s => if s = "" then b else s
  | none => b

/-- JS `a || b` where `a` is a possibly-absent number (`0` is falsy). -/
def jsNatOr (a : Option Nat) (b : Nat) : Nat :=
  match a with
  | some n => if n = 0 then b else n
  | none => b

/-! ## Filesystem model -/

/-- Filesystem state: regular files with string content, plus a set of
directories.  Existence holds for either kind; `stat` reports which. -/
structure FS where
  files : String → Option String
  dirs : String → Bool

/-- `fsAsync.exists`: a pure query; the state comes back unchanged. -/
def fsExistsQ (fs : FS) (p : String) : Bool × FS :=
  ((fs.files p).isSome || fs.dirs p, fs)

/-- The two `fs.Stats` predicates the source consults. -/
structure StatInfo where
  isDirectory : Bool
  isFile : Bool
deriving DecidableEq

/-- `fsAsync.stat`: a pure query; the state comes back unchanged. -/
def fsStatQ (fs : FS) (p : String) : StatInfo × FS :=
  (⟨fs.dirs p, (fs.files p).isSome⟩, fs)

/-- `fsAsync.unlink`: removes a regular file; fails (`ENOENT`-like) when
nothing regular is there. -/
def fsUnlinkQ (fs : FS) (p : String) : Except String FS :=
  if (fs.files p).isSome then
    .ok ⟨fun q => if q = p then none else fs.files q, fs.dirs⟩
  else .error "ENOENT"

/-- `fsAsync.writeFile`: creates or replaces a regular file. -/
def fsWriteQ (fs : FS) (p content : String) : FS :=
  ⟨fun q => if q = p then some content else fs.files q, fs.dirs⟩

/-! ## `parseSelector` (`src/lib/index.js` lines 111–119) -/

/-- The character class `[a-zA-Z0-9='"[\]_-]` of the tag regex
(`Char.ofNat 39` is the apostrophe, `Char.ofNat 34` the double quote). -/
def tagCh (c : Char) : Bool :=
  ('a' ≤ c && c ≤ 'z') || ('A' ≤ c && c ≤ 'Z') || isDecDigitCh c ||
  c = '=' || c = Char.ofNat 39 || c = Char.ofNat 34 || c = '[' || c = ']' ||
  c = '_' || c = '-'

/-- The character class `[a-zA-Z0-1_-]` of the class-name regex — the
digit range really is `0-1` in the source, not `0-9`. -/
def classCh (c : Char) : Bool :=
  ('a' ≤ c && c ≤ 'z') || ('A' ≤ c && c ≤ 'Z') || c = '0' || c = '1' ||
  c = '_' || c = '-'

/-- All matches of the global regex `\.<class>*` for identifier class
`p`: at each `.`, the maximal run of `p`-characters after it (the
leading dot stripped, as the `substr(1)` in the source does); scanning
resumes after each match.  Fuel ≥ input length keeps the recursion
structural. -/
def dotRunsWith (p : Char → Bool) : Nat → List Char → List (List Char)
  | 0, _ => []
  | _, [] => []
  | fuel + 1, c :: rest =>
    if c = '.' then
      (rest.takeWhile p) :: dotRunsWith p fuel (rest.drop (rest.takeWhile p).length)
    else dotRunsWith p fuel rest

/-- Result shape of `parseSelector` (`undefined` tag is `none`). -/
structure SelRes where
  tag : Option String
  classNames : List String
deriving DecidableEq, Repr

/-- `parseSelector` of `src/lib/index.js`.  The tag regex
`/^[a-zA-Z0-9='"[\]_-]*/g` always matches (its star accepts the empty
run), so `tagMatch` is never null and the source's `undefined` fallback
is dead code: the tag is always `some` of the leading run. -/
def parseSelector (selector : String) : SelRes :=
  { tag := some ⟨selector.data.takeWhile tagCh⟩,
    classNames :=
      (dotRunsWith classCh (selector.data.length + 1) selector.data).map
        fun cs => ⟨cs⟩ }

example : parseSelector "span.foo.bar" = ⟨some "span", ["foo", "bar"]⟩ := by decide
example : parseSelector "" = ⟨some "", []⟩ := by decide
example : parseSelector "span.foo9" = ⟨some "span", ["foo"]⟩ := by decide
example : parseSelector ".a.b2c" = ⟨some "", ["a", "b"]⟩ := by decide

/-! ## Path helpers -/

/-- All splittings of `xs` around an occurrence of `pat`, in positional
order: `(before, after)` for every index where `pat` starts. -/
def subSplits (pat xs : List Char) : List (List Char × List Char) :=
  (List.range (xs.length + 1)).filterMap fun i =>
    if List.isPrefixOf pat (xs.drop i) then some (xs.take i, xs.drop (i + pat.length))
    else none

/-- Node's `path.extname`, for the plain paths this program feeds it:
the suffix of the last path component from its final dot; empty when
that component has no dot or only a leading one.  (Node's remaining
special cases — trailing separators, `".."` — do not arise here.) -/
def extname (p : String) : String :=
  let base :=
    match (subSplits ['/'] p.data).getLast? with
    | some ba => ba.2
    | none => p.data
  match (subSplits ['.'] base).getLast? with
  | some ba => if ba.1.isEmpty then "" else ⟨'.' :: ba.2⟩
  | none => ""

example : extname "map.json" = ".json" := by decide
example : extname "a/b/map.tar.json" = ".json" := by decide
example : extname "map" = "" := by decide
example : extname ".json" = "" := by decide
example : extname "dir.d/map" = "" := by decide

/-! ## `validateOptions` (`src/lib/index.js` lines 262–308) -/

/-- Errors escaping the pipeline: `ValidationError`s (with message) or a
JS `TypeError` (reading a property of `undefined`). -/
inductive JsErr where
  | validation (msg : String)
  | typeErr
deriving DecidableEq

/-- `validateOptions`, in explicit state-passing style: every `fsAsync`
query takes the filesystem and hands it back.  `options.paths.length`
on an absent `paths` is a JS `TypeError`; all other failures are
`ValidationError`s, thrown in source order.  (The source short-circuits
`options.cssTemplate && !await fsAsync.exists(...)`; the query here is
let-bound unconditionally, which is indistinguishable because the query
is pure.) -/
def validateOptionsSt (o : JsOptions) (fs : FS) : Except JsErr Unit × FS :=
  match o.paths with
  | none => (.error .typeErr, fs)
  | some ps =>
    if ps.length = 0 then (.error (.validation "No paths specified"), fs)
    else if !jsTruthyS o.outputDir then
      (.error (.validation "Please specify an output directory with -o or --output"), fs)
    else
      let q1 := fsExistsQ fs (o.outputDir.getD "")
      if !q1.1 then (.error (.validation "Output directory doesn\x27t exist"), q1.2)
      else
        let q2 := fsStatQ q1.2 (o.outputDir.getD "")
        if !q2.1.isDirectory then
          (.error (.validation "Output path must be a directory"), q2.2)
        else
          let q3 := fsExistsQ q2.2 (o.cssTemplate.getD "")
          if jsTruthyS o.cssTemplate && !q3.1 then
            (.error (.validation "CSS template not found"), q3.2)
          else
            let q4 := fsExistsQ q3.2 (o.htmlTemplate.getD "")
            if jsTruthyS o.htmlTemplate && !q4.1 then
              (.error (.validation "HTML template not found"), q4.2)
            else
              let cp := o.codepoints.getD ""
              if jsTruthyS o.codepoints then
                let q5 := fsExistsQ q4.2 cp
                if !q5.1 then
                  (.error (.validation ("Cannot find json file @ " ++ cp ++ "!")), q5.2)
                else
                  let q6 := fsStatQ q5.2 cp
                  if !q6.1.isFile || !(extname cp == ".json") then
                    (.error (.validation
                      ("Codepoints file must be JSON " ++ cp ++ " is not a valid file.")), q6.2)
                  else (.ok (), q6.2)
              else (.ok (), q4.2)

/-- The check cascade of the spec (§4.4), as (violated, message) rows in
the fixed order; the codepoints check contributes its two message forms
as the last two rows. -/
def validationRows (o : JsOptions) (fs : FS) : List (Bool × String) :=
  let outDir := o.outputDir.getD ""
  let cssT := o.cssTemplate.getD ""
  let htmlT := o.htmlTemplate.getD ""
  let cp := o.codepoints.getD ""
  [ ((o.paths.getD []).length == 0,
      "No paths specified"),
    (!jsTruthyS o.outputDir,
      "Please specify an output directory with -o or --output"),
    (!((fs.files outDir).isSome || fs.dirs outDir),
      "Output directory doesn\x27t exist"),
    (!fs.dirs outDir,
      "Output path must be a directory"),
    (jsTruthyS o.cssTemplate && !((fs.files cssT).isSome || fs.dirs cssT),
      "CSS template not found"),
    (jsTruthyS o.htmlTemplate && !((fs.files htmlT).isSome || fs.dirs htmlT),
      "HTML template not found"),
    (jsTruthyS o.codepoints && !((fs.files cp).isSome || fs.dirs cp),
      "Cannot find json file @ " ++ cp ++ "!"),
    (jsTruthyS o.codepoints && (!(fs.files cp).isSome || !(extname cp == ".json")),
      "Codepoints file must be JSON " ++ cp ++ " is not a valid file.") ]

/-- First violated row wins; if every row passes the cascade succeeds. -/
def firstViolation : List (Bool × String) → Except JsErr Unit
  | [] => .ok ()
  | (b, m) :: rows => if b then .error (.validation m) else firstViolation rows

theorem validateOptionsSt_state (o : JsOptions) (fs : FS) :
    (validateOptionsSt o fs).2 = fs := by
  rcases hp : o.paths with _ | ps
  · simp [validateOptionsSt, hp]
  · simp only [validateOptionsSt, hp, fsExistsQ, fsStatQ]
    repeat' split
    all_goals rfl

theorem validateOptionsSt_spec (o : JsOptions) (fs : FS) (ps : List String)
    (hps : o.paths = some ps) :
    (validateOptionsSt o fs).1 = firstViolation (validationRows o fs) := by
  simp only [validateOptionsSt, hps, fsExistsQ, fsStatQ, validationRows,
    firstViolation, Option.getD_some]
  by_cases h1 : ps.length = 0
  · simp [h1] <;> (repeat' split) <;> first | rfl | simp_all
  · by_cases h2 : jsTruthyS o.outputDir = true
    · by_cases h3 : ((fs.files (o.outputDir.getD "")).isSome
          || fs.dirs (o.outputDir.getD "")) = true
      · by_cases h4 : fs.dirs (o.outputDir.getD "") = true
        · by_cases h5 : (jsTruthyS o.cssTemplate
              && !((fs.files (o.cssTemplate.getD "")).isSome
                || fs.dirs (o.cssTemplate.getD ""))) = true
          · simp [h1, h2, h3, h4, h5] <;> (repeat' split) <;> first | rfl | simp_all
          · by_cases h6 : (jsTruthyS o.htmlTemplate
                && !((fs.files (o.htmlTemplate.getD "")).isSome
                  || fs.dirs (o.htmlTemplate.getD ""))) = true
            · simp [h1, h2, h3, h4, h5, h6] <;> (repeat' split) <;> first | rfl | simp_all
            · by_cases h7 : jsTruthyS o.codepoints = true
              · by_cases h8 : ((fs.files (o.codepoints.getD "")).isSome
                    || fs.dirs (o.codepoints.getD "")) = true
                · by_cases h9 : (!(fs.files (o.codepoints.getD "")).isSome
                      || !(extname (o.codepoints.getD "") == ".json")) = true
                  · simp [h1, h2, h3, h4, h5, h6, h7, h8, h9] <;> (repeat' split) <;> first | rfl | simp_all
                  · simp [h1, h2, h3, h4, h5, h6, h7, h8, h9] <;> (repeat' split) <;> first | rfl | simp_all
                · simp [h1, h2, h3, h4, h5, h6, h7, h8] <;> (repeat' split) <;> first | rfl | simp_all
              · simp [h1, h2, h3, h4, h5, h6, h7] <;> (repeat' split) <;> first | rfl | simp_all
        · simp [h1, h2, h3, h4] <;> (repeat' split) <;> first | rfl | simp_all
      · simp [h1, h2, h3] <;> (repeat' split) <;> first | rfl | simp_all
    · simp [h1, h2] <;> (repeat' split) <;> first | rfl | simp_all


/-- C6: `validateOptions` fails fast on the first violated check,
performing the checks in the fixed source order (paths non-empty;
outputDir present; outputDir exists; outputDir is a directory;
cssTemplate exists if given; htmlTemplate exists if given; codepoints
file exists, then is a regular file with a `.json` extension) with
exactly the listed message for each — the result equals the
first-violation cascade over `validationRows` — and the checks are pure
filesystem queries: the state handed back is the state received,
unchanged. -/
theorem validateOptions_c6 (o : JsOptions) (fs : FS) :
    (validateOptionsSt o fs).2 = fs
    ∧ (∀ ps, o.paths = some ps →
        (validateOptionsSt o fs).1 = firstViolation (validationRows o fs)) :=
  ⟨validateOptionsSt_state o fs, fun ps hps => validateOptionsSt_spec o fs ps hps⟩

/-- Witness for C6: a concrete run (empty `paths`, existing output
directory) leaves the filesystem untouched and reports the first
violated check. -/
theorem validateOptions_c6_witness :
    (validateOptionsSt { paths := some [], outputDir := some "out" }
        ⟨fun _ => none, fun p => p == "out"⟩).2
      = (⟨fun _ => none, fun p => p == "out"⟩ : FS)
    ∧ (validateOptionsSt { paths := some [], outputDir := some "out" }
        ⟨fun _ => none, fun p => p == "out"⟩).1
      = .error (.validation "No paths specified") := by
  refine ⟨(validateOptions_c6 _ _).1, ?_⟩
  rw [(validateOptions_c6 _ _).2 [] rfl]
  rfl

/-! ## `getCodepointsMap` (`src/lib/index.js` lines 149–164) -/

/-- `getCodepointsMap`, as a function of the `JSON.parse` outcome of the
map file content: `none` models unparsable JSON, `some m` the parsed
object as ordered key/value pairs with string values (the shape the map
files use).  The body applies plain `Number.parseInt` to every value —
`parseCodePoint` of `src/lib/codepoint.js` is exported but never
imported by `src/lib/index.js` — so an unparsable value silently
becomes `NaN` (modelled `none`) instead of raising the per-icon
`ValidationError`. -/
def getCodepointsMap (parsed : Option (List (String × String))) :
    Except String (List (String × Option Nat)) :=
  match parsed with
  | none => .error "Codepoints map is invalid JSON"
  | some m => .ok (m.map fun kv => (kv.1, jsParseIntTok kv.2.data))

/-- C1 (code bug): on unparsable JSON the map parser does fail with
"Codepoints map is invalid JSON", but on a parsed object it never
applies the single-token codepoint parser: the invalid token `"zz"` for
icon `icon1` yields `NaN` (`none`) silently, whereas `parseCodePoint` —
dead code in this build — would raise the `ValidationError` naming the
icon, which is what the claim (and the spec) require. -/
theorem getCodepointsMap_c1 :
    getCodepointsMap none = .error "Codepoints map is invalid JSON"
    ∧ getCodepointsMap (some [("icon1", "zz")]) = .ok [("icon1", none)]
    ∧ parseCodePoint "zz" "icon1" = .error (invalidCodePointMsg "icon1")
    ∧ invalidCodePointMsg "icon1"
      = "Codepoints map contains invalid code point for icon \x27icon1\x27" :=
  ⟨rfl, rfl, rfl, rfl⟩

/-! ## `generate` up to validation (`src/lib/index.js` lines 29–37) -/

theorem assignField_none_left {α : Type} (s : Option α) : assignField none s = s := by
  cases s <;> rfl

/-- The prefix of `generate`: merge the caller options into the
module-level `DEFAULT_OPTIONS` via `Object.assign`, build the start-log
message — whose template string reads `options.paths.length`, raising a
JS `TypeError` when `paths` is absent, before validation runs — then
run `validateOptions`. -/
def generateThroughValidation (o : JsOptions) (fs : FS) : Except JsErr Unit × FS :=
  let merged := objAssign defaultOptionsJs o
  match merged.paths with
  | none => (.error .typeErr, fs)
  | some _ => validateOptionsSt merged fs

theorem firstViolation_ne (target : String) :
    ∀ rows : List (Bool × String), (∀ r ∈ rows, r.1 = true → r.2 ≠ target) →
      firstViolation rows ≠ .error (.validation target) := by
  intro rows
  induction rows with
  | nil => intro _; simp [firstViolation]
  | cons r t ih =>
    intro h
    rcases r with ⟨b, m⟩
    by_cases hb : b = true
    · simpa [firstViolation, hb] using h (b, m) (List.mem_cons_self _ _) hb
    · rw [Bool.not_eq_true] at hb
      simp only [firstViolation, hb, Bool.false_eq_true, if_false]
      exact ih fun r hr => h r (List.mem_cons_of_mem _ hr)

/-- C10: `generate` raises the `ValidationError` "No paths specified"
exactly when `options.paths` is present and empty; an absent `paths`
field instead raises a generic JS `TypeError` (reading `.length` of
`undefined` in the start-log template, before validation runs); with a
nonempty `paths` that particular error cannot arise. -/
theorem generate_c10 (o : JsOptions) (fs : FS) :
    (o.paths = some [] →
      (generateThroughValidation o fs).1 = .error (.validation "No paths specified"))
    ∧ (o.paths = none →
      (generateThroughValidation o fs).1 = .error .typeErr)
    ∧ (∀ ps, o.paths = some ps → ps ≠ [] →
      (generateThroughValidation o fs).1 ≠ .error (.validation "No paths specified")) := by
  have hm : (objAssign defaultOptionsJs o).paths = o.paths := by
    simp [objAssign, defaultOptionsJs, assignField_none_left]
  refine ⟨?_, ?_, ?_⟩
  · intro hps
    simp only [generateThroughValidation, hm, hps]
    rw [validateOptionsSt_spec (objAssign defaultOptionsJs o) fs []
      (hm.trans hps)]
    simp [validationRows, firstViolation, hm, hps]
  · intro hps
    simp [generateThroughValidation, hm, hps]
  · intro ps hps hne
    simp only [generateThroughValidation, hm, hps]
    rw [validateOptionsSt_spec (objAssign defaultOptionsJs o) fs ps
      (hm.trans hps)]
    apply firstViolation_ne
    intro r hr hr1
    simp only [validationRows, hm, hps, Option.getD_some, List.mem_cons,
      List.not_mem_nil, or_false] at hr
    rcases hr with rfl | rfl | rfl | rfl | rfl | rfl | rfl | rfl
    · rw [Nat.beq_eq_true_eq] at hr1
      exact absurd (List.length_eq_zero.mp hr1) hne
    · exact (by decide :
        ("Please specify an output directory with -o or --output" : String)
          ≠ "No paths specified")
    · exact (by decide :
        ("Output directory doesn\x27t exist" : String) ≠ "No paths specified")
    · exact (by decide :
        ("Output path must be a directory" : String) ≠ "No paths specified")
    · exact (by decide :
        ("CSS template not found" : String) ≠ "No paths specified")
    · exact (by decide :
        ("HTML template not found" : String) ≠ "No paths specified")
    · intro heq
      have hlen := congrArg String.length heq
      rw [String.length_append, String.length_append] at hlen
      rw [show ("Cannot find json file @ " : String).length = 24 from rfl,
        show ("!" : String).length = 1 from rfl,
        show ("No paths specified" : String).length = 18 from rfl] at hlen
      omega
    · intro heq
      have hlen := congrArg String.length heq
      rw [String.length_append, String.length_append] at hlen
      rw [show ("Codepoints file must be JSON " : String).length = 29 from rfl,
        show (" is not a valid file." : String).length = 21 from rfl,
        show ("No paths specified" : String).length = 18 from rfl] at hlen
      omega

/-- Witness for C10: concrete runs for the empty-`paths` and
absent-`paths` cases. -/
theorem generate_c10_witness :
    (generateThroughValidation { paths := some [] }
        ⟨fun _ => none, fun _ => false⟩).1
      = .error (.validation "No paths specified")
    ∧ (generateThroughValidation {} ⟨fun _ => none, fun _ => false⟩).1
      = .error .typeErr :=
  ⟨(generate_c10 { paths := some [] } ⟨fun _ => none, fun _ => false⟩).1 rfl,
    (generate_c10 {} ⟨fun _ => none, fun _ => false⟩).2.1 rfl⟩

/-! ## Cross-invocation state (`Object.assign(DEFAULT_OPTIONS, options)`) -/

/-- Resolved options of a *second* `generate` call: the first call's
`Object.assign(DEFAULT_OPTIONS, o1)` mutated the module-level
`DEFAULT_OPTIONS` object in place (the merge result *is* the target),
so the second call merges `o2` into that residue. -/
def secondCallResolved (o1 o2 : JsOptions) : JsOptions :=
  objAssign (objAssign defaultOptionsJs o1) o2

/-- Resolved options of a `generate` call against a pristine module
state, i.e. as if no earlier call had happened. -/
def freshCallResolved (o : JsOptions) : JsOptions :=
  objAssign defaultOptionsJs o

/-- C2 counterexample: two-run noninterference fails.  A first call that
passed `codepoints` leaks that key into a second call that did not pass
it: the second call's resolved options differ from a fresh call's. -/
theorem generate_c2_counter :
    secondCallResolved { codepoints := some "map.json" } {} ≠ freshCallResolved {} := by
  decide

/-- Key-wise definedness order: every option key present on `a` is
present on `b`. -/
def definedLe (a b : JsOptions) : Prop :=
  (a.paths.isSome = true → b.paths.isSome = true)
  ∧ (a.outputDir.isSome = true → b.outputDir.isSome = true)
  ∧ (a.fontName.isSome = true → b.fontName.isSome = true)
  ∧ (a.fontsPath.isSome = true → b.fontsPath.isSome = true)
  ∧ (a.css.isSome = true → b.css.isSome = true)
  ∧ (a.json.isSome = true → b.json.isSome = true)
  ∧ (a.html.isSome = true → b.html.isSome = true)
  ∧ (a.silent.isSome = true → b.silent.isSome = true)
  ∧ (a.types.isSome = true → b.types.isSome = true)
  ∧ (a.cssPath.isSome = true → b.cssPath.isSome = true)
  ∧ (a.htmlPath.isSome = true → b.htmlPath.isSome = true)
  ∧ (a.jsonPath.isSome = true → b.jsonPath.isSome = true)
  ∧ (a.cssTemplate.isSome = true → b.cssTemplate.isSome = true)
  ∧ (a.htmlTemplate.isSome = true → b.htmlTemplate.isSome = true)
  ∧ (a.cssFontsUrl.isSome = true → b.cssFontsUrl.isSome = true)
  ∧ (a.classPfx.isSome = true → b.classPfx.isSome = true)
  ∧ (a.baseTag.isSome = true → b.baseTag.isSome = true)
  ∧ (a.baseSelector.isSome = true → b.baseSelector.isSome = true)
  ∧ (a.codepoints.isSome = true → b.codepoints.isSome = true)
  ∧ (a.startCodepoint.isSome = true → b.startCodepoint.isSome = true)
  ∧ (a.codepointsMap.isSome = true → b.codepointsMap.isSome = true)
  ∧ (a.templateOptions.isSome = true → b.templateOptions.isSome = true)

theorem assignField_skip {α : Type} (d a b : Option α)
    (h : a.isSome = true → b.isSome = true) :
    assignField (assignField d a) b = assignField d b := by
  cases a with
  | none => rfl
  | some v =>
    cases b with
    | none => exact absurd (h rfl) (by simp)
    | some w => rfl

/-- C2 (amended): option state *does* persist across `generate`
invocations through the mutated module-level `DEFAULT_OPTIONS`; the
second call resolves options against the first call's residue, and it
coincides with a fresh call exactly on the keys the second caller
supplies — in particular, whenever every key defined by the first
call's options is also defined by the second call's, the second call's
resolved options equal those of a fresh call. -/
theorem generate_c2_amended (o1 o2 : JsOptions) (h : definedLe o1 o2) :
    secondCallResolved o1 o2 = freshCallResolved o2 := by
  obtain ⟨h1, h2, h3, h4, h5, h6, h7, h8, h9, h10, h11,
    h12, h13, h14, h15, h16, h17, h18, h19, h20, h21, h22⟩ := h
  simp only [secondCallResolved, freshCallResolved, objAssign, JsOptions.mk.injEq]
  exact ⟨assignField_skip _ _ _ h1, assignField_skip _ _ _ h2,
    assignField_skip _ _ _ h3, assignField_skip _ _ _ h4,
    assignField_skip _ _ _ h5, assignField_skip _ _ _ h6,
    assignField_skip _ _ _ h7, assignField_skip _ _ _ h8,
    assignField_skip _ _ _ h9, assignField_skip _ _ _ h10,
    assignField_skip _ _ _ h11, assignField_skip _ _ _ h12,
    assignField_skip _ _ _ h13, assignField_skip _ _ _ h14,
    assignField_skip _ _ _ h15, assignField_skip _ _ _ h16,
    assignField_skip _ _ _ h17, assignField_skip _ _ _ h18,
    assignField_skip _ _ _ h19, assignField_skip _ _ _ h20,
    assignField_skip _ _ _ h21, assignField_skip _ _ _ h22⟩

/-- Witness for C2 (amended): both calls supply the same single key, so
the second call resolves as a fresh one. -/
theorem generate_c2_amended_witness :
    secondCallResolved { codepoints := some "a.json" } { codepoints := some "b.json" }
      = freshCallResolved { codepoints := some "b.json" } :=
  generate_c2_amended { codepoints := some "a.json" } { codepoints := some "b.json" }
    (by refine ⟨?_, ?_, ?_, ?_, ?_, ?_, ?_, ?_, ?_, ?_, ?_, ?_, ?_, ?_, ?_, ?_,
      ?_, ?_, ?_, ?_, ?_, ?_⟩ <;> decide)

/-! ## `deleteUnspecifiedTypes` (`src/lib/index.js` lines 240–252) -/

/-- `path.resolve(outputDir, fontName + '.' + ext)`, modulo prefixing
the working directory (which affects every format's path identically
and nothing the claims observe). -/
def resolveFontPath (outputDir fontName ext : String) : String :=
  outputDir ++ "/" ++ fontName ++ "." ++ ext

/-- The `for...of FONT_TYPES` loop of `deleteUnspecifiedTypes`:
requested formats are skipped (`continue`); otherwise the font file's
existence is checked and it is unlinked when present. -/
def delLoop (outputDir fontName : String) (types : List String) :
    List String → FS → Except String FS
  | [], fs => .ok fs
  | ext :: rest, fs =>
    if types.contains ext then delLoop outputDir fontName types rest fs
    else
      let p := resolveFontPath outputDir fontName ext
      let q := fsExistsQ fs p
      if q.1 then
        match fsUnlinkQ q.2 p with
        | .ok fs2 => delLoop outputDir fontName types rest fs2
        | .error e => .error e
      else delLoop outputDir fontName types rest q.2

/-- `deleteUnspecifiedTypes` of `src/lib/index.js`. -/
def deleteUnspecifiedTypes (o : JsOptions) (fs : FS) : Except String FS :=
  delLoop (o.outputDir.getD "") (o.fontName.getD "") (o.types.getD []) fontTypes fs

theorem fsExt {a b : FS} (hf : ∀ p, a.files p = b.files p)
    (hd : ∀ p, a.dirs p = b.dirs p) : a = b := by
  cases a; cases b
  simp only [FS.mk.injEq]
  exact ⟨funext hf, funext hd⟩

theorem resolveFontPath_inj (outputDir fontName : String) {e1 e2 : String}
    (h : resolveFontPath outputDir fontName e1 = resolveFontPath outputDir fontName e2) :
    e1 = e2 := by
  have hd := congrArg String.data h
  simp only [resolveFontPath, String.data_append] at hd
  exact String.ext (List.append_cancel_left hd)

theorem delLoop_spec (outputDir fontName : String) (types : List String) :
    ∀ (exts : List String) (fs : FS),
      (∀ e ∈ exts, fs.dirs (resolveFontPath outputDir fontName e) = false) →
      delLoop outputDir fontName types exts fs
        = .ok ⟨fun p =>
            if exts.any fun e =>
              !types.contains e && (p == resolveFontPath outputDir fontName e)
            then none else fs.files p,
          fs.dirs⟩ := by
  intro exts
  induction exts with
  | nil => intro fs hnd; rfl
  | cons e rest ih =>
    intro fs hnd
    have hndRest : ∀ x ∈ rest, fs.dirs (resolveFontPath outputDir fontName x) = false :=
      fun x hx => hnd x (List.mem_cons_of_mem _ hx)
    by_cases hmem : types.contains e = true
    · have hm2 : e ∈ types := by simpa using hmem
      simp only [delLoop, hmem, if_true]
      rw [ih fs hndRest]
      refine congrArg Except.ok (fsExt (fun p => ?_) (fun p => rfl))
      simp [List.any_cons, hm2]
    · rw [Bool.not_eq_true] at hmem
      have hm2 : e ∉ types := by simpa using hmem
      simp only [delLoop, hmem, Bool.false_eq_true, if_false, fsExistsQ,
        hnd e (List.mem_cons_self _ _), Bool.or_false]
      by_cases hex : (fs.files (resolveFontPath outputDir fontName e)).isSome = true
      · simp only [hex, if_true, fsUnlinkQ]
        rw [ih ⟨fun q => if q = resolveFontPath outputDir fontName e then none
            else fs.files q, fs.dirs⟩ (fun x hx => hndRest x hx)]
        refine congrArg Except.ok (fsExt (fun p => ?_) (fun p => rfl))
        by_cases hp : p = resolveFontPath outputDir fontName e
        · subst hp
          simp [List.any_cons, hm2]
        · simp [List.any_cons, hm2, hp]
      · rw [Bool.not_eq_true] at hex
        have hnone : fs.files (resolveFontPath outputDir fontName e) = none := by
          cases hfe : fs.files (resolveFontPath outputDir fontName e) with
          | none => rfl
          | some v => rw [hfe] at hex; simp at hex
        simp only [hex, Bool.false_eq_true, if_false]
        rw [ih fs hndRest]
        refine congrArg Except.ok (fsExt (fun p => ?_) (fun p => rfl))
        by_cases hp : p = resolveFontPath outputDir fontName e
        · subst hp
          simp [List.any_cons, hm2, hnone]
        · simp [List.any_cons, hm2, hp]

/-- C7: the cleanup step always succeeds (prior absence of a file is
not an error), and afterwards the file of every known font format not
requested in `options.types` is gone, while the file of every requested
format — and every directory — is untouched.  (Hypothesis: none of the
five candidate font paths is a directory, since `fs.unlink` cannot
remove directories.) -/
theorem deleteUnspecifiedTypes_c7 (o : JsOptions) (fs : FS)
    (hnd : ∀ e ∈ fontTypes,
      fs.dirs (resolveFontPath (o.outputDir.getD "") (o.fontName.getD "") e) = false) :
    ∃ fs2, deleteUnspecifiedTypes o fs = .ok fs2
      ∧ (∀ e ∈ fontTypes, (o.types.getD []).contains e = false →
          fs2.files (resolveFontPath (o.outputDir.getD "") (o.fontName.getD "") e) = none)
      ∧ (∀ e, (o.types.getD []).contains e = true →
          fs2.files (resolveFontPath (o.outputDir.getD "") (o.fontName.getD "") e)
            = fs.files (resolveFontPath (o.outputDir.getD "") (o.fontName.getD "") e))
      ∧ fs2.dirs = fs.dirs := by
  refine ⟨_, delLoop_spec (o.outputDir.getD "") (o.fontName.getD "") (o.types.getD [])
    fontTypes fs hnd, ?_, ?_, rfl⟩
  · intro e he hmem
    have hm2 : e ∉ o.types.getD [] := by simpa using hmem
    have hany : (fontTypes.any fun e2 => !(o.types.getD []).contains e2
        && ((resolveFontPath (o.outputDir.getD "") (o.fontName.getD "") e)
          == resolveFontPath (o.outputDir.getD "") (o.fontName.getD "") e2)) = true :=
      List.any_eq_true.mpr ⟨e, he, by simp [hm2]⟩
    simp only [hany]
    simp
  · intro e hmem
    have hm2 : e ∈ o.types.getD [] := by simpa using hmem
    have hany : (fontTypes.any fun e2 => !(o.types.getD []).contains e2
        && ((resolveFontPath (o.outputDir.getD "") (o.fontName.getD "") e)
          == resolveFontPath (o.outputDir.getD "") (o.fontName.getD "") e2)) = false := by
      rw [List.any_eq_false]
      intro e2 he2
      by_cases hpe : resolveFontPath (o.outputDir.getD "") (o.fontName.getD "") e
          = resolveFontPath (o.outputDir.getD "") (o.fontName.getD "") e2
      · have := resolveFontPath_inj _ _ hpe
        subst this
        simp [hm2]
      · simp [hpe]
    simp only [hany]
    simp

/-- Witness for C7: with `types = ["svg","ttf"]` and all five font files
present, cleanup succeeds, removes the woff/woff2/eot files and leaves
the svg/ttf files untouched. -/
theorem deleteUnspecifiedTypes_c7_witness :
    ∃ fs2,
      deleteUnspecifiedTypes
          { outputDir := some "out", fontName := some "icons",
            types := some ["svg", "ttf"] }
          ⟨fun p => if (["out/icons.svg", "out/icons.ttf", "out/icons.woff",
              "out/icons.woff2", "out/icons.eot"] : List String).contains p
            then some "bin" else none, fun _ => false⟩
        = .ok fs2
      ∧ fs2.files "out/icons.woff" = none
      ∧ fs2.files "out/icons.woff2" = none
      ∧ fs2.files "out/icons.eot" = none
      ∧ fs2.files "out/icons.svg" = some "bin"
      ∧ fs2.files "out/icons.ttf" = some "bin" := by
  obtain ⟨fs2, hok, hdel, hkeep, hdirs⟩ :=
    deleteUnspecifiedTypes_c7
      { outputDir := some "out", fontName := some "icons",
        types := some ["svg", "ttf"] }
      ⟨fun p => if (["out/icons.svg", "out/icons.ttf", "out/icons.woff",
          "out/icons.woff2", "out/icons.eot"] : List String).contains p
        then some "bin" else none, fun _ => false⟩
      (fun e _ => rfl)
  exact ⟨fs2, hok,
    hdel "woff" (by decide) (by decide),
    hdel "woff2" (by decide) (by decide),
    hdel "eot" (by decide) (by decide),
    (hkeep "svg" (by decide)).trans rfl,
    (hkeep "ttf" (by decide)).trans rfl⟩

/-! ## `generateJson` and `CSS_PARSE_REGEX` (`src/lib/index.js` lines 220–232) -/

/-- A JS regex line terminator (the ones `.` refuses to match and
`\r?\n` consumes). -/
def isEolCh (c : Char) : Bool :=
  c = '\n' || c = '\r'

/-- JS regex `\s`, restricted to the whitespace that can occur in the
generated stylesheets. -/
def isWsCh (c : Char) : Bool :=
  c = ' ' || c = '\t' || c = '\n' || c = '\r'

/-- One attempted match of `CSS_PARSE_REGEX` — the pattern
`-(.*):before.*\r?\n\s*content: "(.*)"` with flags `gm` — at a
position whose `-` has just been consumed; `cs` is the text after that
`-`.  The greedy
`.*` (which never crosses a line terminator) runs the name capture to
the *last* `:before` of its line and the code capture to the last `"`
of its line; `\r?\n` consumes the line break and `\s*` the maximal
whitespace run before the literal `content: "`.  Returns the two
captures and the remainder after the match. -/
def cssMatchAt (cs : List Char) : Option (List Char × List Char × List Char) :=
  let seg := cs.takeWhile fun c => !isEolCh c
  match (subSplits (":before".data) seg).getLast? with
  | none => none
  | some npair =>
    let afterSeg := cs.drop seg.length
    let afterEol : Option (List Char) :=
      match afterSeg with
      | '\r' :: '\n' :: rest => some rest
      | '\n' :: rest => some rest
      | _ => none
    match afterEol with
    | none => none
    | some rest2 =>
      let rest3 := rest2.drop (rest2.takeWhile isWsCh).length
      if List.isPrefixOf ("content: \"".data) rest3 then
        let rest4 := rest3.drop ("content: \"".data).length
        let seg2 := rest4.takeWhile fun c => !isEolCh c
        match (subSplits ['"'] seg2).getLast? with
        | none => none
        | some cpair => some (npair.1, cpair.1, rest4.drop (cpair.1.length + 1))
      else none

/-- The global scan of `CSS_PARSE_REGEX` over the stylesheet text:
attempt a match at every `-`, resume after each successful match (the
regex engine's `lastIndex`).  Fuel ≥ input length bounds the step
count. -/
def cssScan (fuel : Nat) (cs : List Char) : List (List Char × List Char) :=
  match fuel, cs with
  | 0, _ => []
  | _, [] => []
  | f + 1, c :: rest =>
    if c = '-' then
      match cssMatchAt rest with
      | some ncr => (ncr.1, ncr.2.1) :: cssScan f ncr.2.2
      | none => cssScan f rest
    else cssScan f rest

/-- `map[name] = code` on a JS object: overwrite in place when the key
exists (JS keeps the original insertion position), append otherwise. -/
def objSet (m : List (String × String)) (k v : String) : List (String × String) :=
  if m.any fun kv => kv.1 == k then
    m.map fun kv => if kv.1 == k then (k, v) else kv
  else m ++ [(k, v)]

/-- The `css.replace(CSS_PARSE_REGEX, (match, name, code) => map[name] = code)`
extraction of `generateJson`: every match, folded into the
insertion-ordered map. -/
def cssExtract (css : String) : List (String × String) :=
  (cssScan (css.data.length + 1) css.data).foldl
    (fun m nc => objSet m ⟨nc.1⟩ ⟨nc.2⟩) []

/-- `JSON.stringify` escaping of one string character (all the cases
this program's strings can contain). -/
def escJsonChar (c : Char) : String :=
  if c = Char.ofNat 34 then "\\\"" else if c = '\\' then "\\\\"
  else if c = '\n' then "\\n" else if c = '\r' then "\\r"
  else if c = '\t' then "\\t" else String.singleton c

/-- `JSON.stringify` escaping of a whole string. -/
def escJson (s : String) : String :=
  s.data.foldl (fun acc c => acc ++ escJsonChar c) ""

/-- `JSON.stringify(map, null, 4)` for a string-valued object: `{}` when
empty, else one 4-space-indented `"key": "value"` property line per
entry. -/
def jsStringifyMap4 (m : List (String × String)) : String :=
  match m with
  | [] => "\x7b\x7d"
  | _ => "\x7b\n"
    ++ String.intercalate ",\n"
      (m.map fun kv => "    \"" ++ escJson kv.1 ++ "\": \"" ++ escJson kv.2 ++ "\"")
    ++ "\n\x7d"

/-- The json artifact path:
`options.jsonPath || path.join(outputDir, '/' + fontName) + '.json'`. -/
def getJsonPath (o : JsOptions) : String :=
  jsStrOr o.jsonPath (o.outputDir.getD "" ++ "/" ++ o.fontName.getD "" ++ ".json")

/-- `generateJson` of `src/lib/index.js`, with the engine result's
`generateCss()` text passed in: scrape the icon map from the CSS and
write its 4-space-indented JSON serialization at the json path. -/
def generateJson (o : JsOptions) (css : String) (fs : FS) : FS :=
  fsWriteQ fs (getJsonPath o) (jsStringifyMap4 (cssExtract css))

example : cssExtract
    ".icon-home:before \x7b\n    content: \"\\f101\";\n\x7d\n"
    = [("home", "\\f101")] := by decide

example : cssExtract
    ".icon-home:before \x7b\r\n    content: \"\\f101\";\r\n\x7d\r\n.icon-user:before \x7b\r\n    content: \"\\f102\";\r\n\x7d\r\n"
    = [("home", "\\f101"), ("user", "\\f102")] := by decide

example : jsStringifyMap4 [] = "\x7b\x7d" := by decide

theorem natToDecString_all_digits (n : Nat) :
    ∀ c ∈ (natToDecString n).data, isDecDigitCh c = true := by
  intro c hc
  have hall := natToBaseChars_all 10 n (by omega) isDecDigitCh
    isDecDigitCh_digitCh (by decide)
  rw [List.all_eq_true] at hall
  exact hall c hc

/-- C3 counterexample: for the one-icon stylesheet
`.icon-home:before { content: "\f101"; }` the extractor captures the
raw content string `\f101`, and the written artifact serializes it as
the JSON *string* `"\f101"` — which is not the decimal rendering of any
integer, so the artifact's values are not integer codepoints as the
claim states. -/
theorem generateJson_c3_counter :
    cssExtract ".icon-home:before \x7b\n    content: \"\\f101\";\n\x7d\n"
      = [("home", "\\f101")]
    ∧ (generateJson
        { outputDir := some "out", fontName := some "icons" }
        ".icon-home:before \x7b\n    content: \"\\f101\";\n\x7d\n"
        ⟨fun _ => none, fun _ => false⟩).files "out/icons.json"
      = some "\x7b\n    \"home\": \"\\\\f101\"\n\x7d"
    ∧ ¬ ∃ n : Nat, ("\\f101" : String) = natToDecString n := by
  refine ⟨by decide, by decide, ?_⟩
  rintro ⟨n, hn⟩
  have hd : '\\' ∈ (natToDecString n).data := by
    rw [← hn]
    decide
  have := natToDecString_all_digits n '\\' hd
  exact absurd this (by decide)

/-- C3 (amended): the JSON map artifact written at the resolved json
path is the 4-space-indented serialization of the icon map scraped from
the generated CSS — a JSON object whose keys are the icon names and
whose values are the raw captured `content` strings (CSS escape text
such as `\f101`), serialized as JSON strings rather than integer
codepoints; no other file and no directory changes. -/
theorem generateJson_c3_amended (o : JsOptions) (css : String) (fs : FS) :
    (generateJson o css fs).files (getJsonPath o)
      = some (jsStringifyMap4 (cssExtract css))
    ∧ (∀ p, p ≠ getJsonPath o → (generateJson o css fs).files p = fs.files p)
    ∧ (generateJson o css fs).dirs = fs.dirs := by
  refine ⟨by simp [generateJson, fsWriteQ], fun p hp => ?_, rfl⟩
  simp [generateJson, fsWriteQ, hp]

/-- Witness for C3 (amended): the frame condition at a concrete path
that is not the json path. -/
theorem generateJson_c3_amended_witness :
    (generateJson { outputDir := some "out", fontName := some "icons" }
        "" ⟨fun _ => none, fun _ => false⟩).files "other.txt" = none :=
  ((generateJson_c3_amended { outputDir := some "out", fontName := some "icons" }
    "" ⟨fun _ => none, fun _ => false⟩).2.1 "other.txt" (by decide)).trans rfl

/-! ## C4: the selector-parser claim -/

/-- The selector parser as claim C4 describes it: `undefined` tag on
empty input, and class-name identifiers drawn from the *same* character
class as the tag (`[a-zA-Z0-9='"[\]_-]`). -/
def parseSelectorClaimed (selector : String) : SelRes :=
  { tag := if selector.data.isEmpty then none
      else some ⟨selector.data.takeWhile tagCh⟩,
    classNames :=
      (dotRunsWith tagCh (selector.data.length + 1) selector.data).map
        fun cs => ⟨cs⟩ }

/-- C4 counterexample: on the empty selector the code yields the tag
`some ""` — the tag regex star matches the empty run, so the
`undefined` fallback is dead — not `undefined`; and on `span.foo9` the
class-name capture stops at the digit `9`, because the class-name
regex's digit range is `0-1` rather than the tag class's `0-9`: the
code yields `["foo"]` where the claim predicts `["foo9"]`. -/
theorem parseSelector_c4_counter :
    parseSelector "" ≠ parseSelectorClaimed ""
    ∧ parseSelector "span.foo9" ≠ parseSelectorClaimed "span.foo9"
    ∧ parseSelector "" = ⟨some "", []⟩
    ∧ parseSelectorClaimed "" = ⟨none, []⟩
    ∧ parseSelector "span.foo9" = ⟨some "span", ["foo"]⟩
    ∧ parseSelectorClaimed "span.foo9" = ⟨some "span", ["foo9"]⟩ :=
  ⟨by decide, by decide, by decide, by decide, by decide, by decide⟩

theorem dotRunsWith_all (p : Char → Bool) :
    ∀ fuel cs run, run ∈ dotRunsWith p fuel cs → run.all p = true := by
  intro fuel
  induction fuel with
  | zero => intro cs run h; simp [dotRunsWith] at h
  | succ f ih =>
    intro cs run h
    cases cs with
    | nil => simp [dotRunsWith] at h
    | cons c rest =>
      by_cases hc : c = '.'
      · rw [dotRunsWith, if_pos hc] at h
        rcases List.mem_cons.mp h with h1 | h1
        · subst h1
          exact List.all_eq_true.mpr fun a ha => List.mem_takeWhile_imp ha
        · exact ih _ _ h1
      · rw [dotRunsWith, if_neg hc] at h
        exact ih _ _ h

/-- C4 (amended): the tag is *always* `some` of the leading run of
`[a-zA-Z0-9='"[\]_-]` characters (the empty string — never `undefined`
— when the run is empty, in particular on empty input); every class
name is a run of characters from the narrower class `[a-zA-Z0-1_-]`
with the leading dot stripped; and the claim's positive example still
holds: `parseSelector "span.foo.bar" = ⟨some "span", ["foo","bar"]⟩`. -/
theorem parseSelector_c4_amended :
    (∀ s : String, (parseSelector s).tag = some ⟨s.data.takeWhile tagCh⟩)
    ∧ (∀ s : String, ∀ cn ∈ (parseSelector s).classNames,
        cn.data.all classCh = true)
    ∧ parseSelector "span.foo.bar" = ⟨some "span", ["foo", "bar"]⟩
    ∧ parseSelector "" = ⟨some "", []⟩
    ∧ (parseSelector "span.foo9").classNames = ["foo"] := by
  refine ⟨fun s => rfl, fun s cn hcn => ?_, by decide, by decide, by decide⟩
  simp only [parseSelector, List.mem_map] at hcn
  obtain ⟨cs, hcs, rfl⟩ := hcn
  exact dotRunsWith_all classCh _ _ cs hcs

/-- Witness for C4 (amended): the class name extracted from `a.bc` is
made of narrow-class characters. -/
theorem parseSelector_c4_amended_witness :
    ("bc" : String).data.all classCh = true :=
  parseSelector_c4_amended.2.1 "a.bc" "bc" (by decide)

/-! ## `getGeneratorConfig` (`src/lib/index.js` lines 65–103) -/

/-- `TEMPLATES.css` of `src/lib/constants.js` (resolved against the
package directory; the relative literal stands in for `__dirname`). -/
def templatesCssPath : String := "template/css.hbs"

/-- `TEMPLATES.html` of `src/lib/constants.js`. -/
def templatesHtmlPath : String := "template/html.hbs"

/-- Node `path.dirname`, for the plain paths used here. -/
def pathDirname (p : String) : String :=
  match (subSplits ['/'] p.data).getLast? with
  | some ba => if ba.1.isEmpty then "/" else ⟨ba.1⟩
  | none => "."

/-- Strip the common leading segments of two segment lists. -/
def stripCommon : List String → List String → List String × List String
  | a :: as2, b :: bs => if a = b then stripCommon as2 bs else (a :: as2, b :: bs)
  | as2, bs => (as2, bs)

/-- Node `path.relative` on normalized relative paths: drop the common
segment prefix, climb out of the rest of `fr` with `..`, descend into
the rest of `to`.  (Node resolves both against the working directory
first; on the inputs this program produces the outcome is the same.) -/
def pathRelative (fr dst : String) : String :=
  let fsegs := (fr.splitOn "/").filter fun s => s != "" && s != "."
  let tsegs := (dst.splitOn "/").filter fun s => s != "" && s != "."
  let pr := stripCommon fsegs tsegs
  String.intercalate "/" (pr.1.map (fun _ => "..") ++ pr.2)

/-- `getCssFontsUrl` of `src/lib/index.js` (lines 133–141): an explicit
`cssFontsUrl` wins; else, with a custom css path, the relative path
from the css file's directory to the output directory; else `./`. -/
def getCssFontsUrl (o : JsOptions) : String :=
  if jsTruthyS o.cssFontsUrl then o.cssFontsUrl.getD ""
  else if jsTruthyS o.cssPath then
    pathRelative (pathDirname (o.cssPath.getD "")) (o.outputDir.getD "")
  else "./"

/-- The template variables (`templateOptions`) handed to the templates;
`classPfx` is `classPrefix` in the source, and the
`htmlCssRelativePath` variable (path arithmetic between the html and
css output paths, observed by no claim) is not modelled. -/
structure TemplateOpts where
  baseTag : String
  baseSelector : Option String
  baseClassNames : String
  classPfx : String
deriving DecidableEq

/-- The configuration handed to `webfonts-generator`: the fields built
by `getGeneratorConfig`, except the `OPTIONAL_PARAMS` passthrough loop
(which copies defined optional styling parameters onto the config,
float-coercing numeric strings — observed by no claim). -/
structure GeneratorConfig where
  files : List String
  dest : Option String
  types : List String
  codepoints : Option (List (String × Option Nat))
  startCodepoint : Nat
  cssDest : Option String
  cssFontsUrl : String
  htmlDest : Option String
  cssTemplate : String
  htmlTemplate : String
  templateOptions : TemplateOpts
deriving DecidableEq

/-- `getGeneratorConfig` of `src/lib/index.js`. -/
def getGeneratorConfig (o : JsOptions) : GeneratorConfig :=
  let sel := parseSelector (o.baseSelector.getD "")
  { files := o.paths.getD []
    dest := o.outputDir
    types := o.types.getD []
    codepoints := o.codepointsMap
    startCodepoint := jsNatOr o.startCodepoint 0xF101
    cssDest := o.cssPath
    cssFontsUrl := getCssFontsUrl o
    htmlDest := o.htmlPath
    cssTemplate := jsStrOr o.cssTemplate templatesCssPath
    htmlTemplate := jsStrOr o.htmlTemplate templatesHtmlPath
    templateOptions :=
      { baseTag := jsStrOr sel.tag (jsStrOr o.baseTag "i")
        baseSelector :=
          (match o.baseSelector with
          | some s => if s = "" then none else some s
          | none => none)
        baseClassNames := String.intercalate " " sel.classNames
        classPfx := jsStrOr o.classPfx "icon" ++ "-" } }

/-- C5: with `baseSelector` present, the selector-derived tag takes
precedence over the explicit `baseTag` option for the `baseTag`
template variable, falling back to `"i"` only when neither yields a
(truthy) tag; `baseClassNames` is the space-joined selector class-name
list; and `classPrefix` is the explicit prefix or `"icon"`, suffixed
with `"-"`. -/
theorem getGeneratorConfig_c5 (o : JsOptions) (sel : String)
    (hsel : o.baseSelector = some sel) :
    (∀ t, (parseSelector sel).tag = some t → t ≠ "" →
      (getGeneratorConfig o).templateOptions.baseTag = t)
    ∧ ((parseSelector sel).tag = some "" →
      (getGeneratorConfig o).templateOptions.baseTag = jsStrOr o.baseTag "i")
    ∧ ((parseSelector sel).tag = none →
      (getGeneratorConfig o).templateOptions.baseTag = jsStrOr o.baseTag "i")
    ∧ (getGeneratorConfig o).templateOptions.baseClassNames
      = String.intercalate " " (parseSelector sel).classNames
    ∧ (getGeneratorConfig o).templateOptions.classPfx
      = jsStrOr o.classPfx "icon" ++ "-" := by
  refine ⟨?_, ?_, ?_, ?_, ?_⟩
  · intro t ht hne
    simp only [getGeneratorConfig, hsel, Option.getD_some]
    rw [ht]
    simp [jsStrOr, hne]
  · intro ht
    simp only [getGeneratorConfig, hsel, Option.getD_some]
    rw [ht]
    simp [jsStrOr]
  · intro ht
    simp only [getGeneratorConfig, hsel, Option.getD_some]
    rw [ht]
    simp [jsStrOr]
  · simp [getGeneratorConfig, hsel]
  · simp [getGeneratorConfig, hsel]

/-- Witness for C5 at `baseSelector = "span.foo.bar"`, with an explicit
`baseTag` that the selector tag overrides. -/
theorem getGeneratorConfig_c5_witness :
    (getGeneratorConfig { baseSelector := some "span.foo.bar", baseTag := some "em", classPfx := some "glyph" }).templateOptions.baseTag
      = "span"
    ∧ (getGeneratorConfig { baseSelector := some "span.foo.bar", baseTag := some "em", classPfx := some "glyph" }).templateOptions.baseClassNames
      = "foo bar"
    ∧ (getGeneratorConfig { baseSelector := some "span.foo.bar", baseTag := some "em", classPfx := some "glyph" }).templateOptions.classPfx
      = "glyph-" := by
  have h := getGeneratorConfig_c5
    { baseSelector := some "span.foo.bar", baseTag := some "em", classPfx := some "glyph" }
    "span.foo.bar" rfl
  exact ⟨h.1 "span" (by decide) (by decide), h.2.2.2.1.trans (by decide),
    h.2.2.2.2.trans (by decide)⟩
